import Mathlib

/-!
Verification of LivePhotoSort (`live_photo_sort.py`), a tool that pairs Live
Photo still images with their companion videos by shared ContentIdentifier,
derives a sortable base name per pair, and relocates both halves with
copy / SHA-256-verify / delete-source semantics.

The development is a shallow embedding of the script's core functions:
`scan_folder`'s record-classification loop, the first-seen-wins merge in
`main`, `rich_base_name`, `safe_dest_path`, `safe_move`, and `move_pairs`.
The filesystem is modelled as an explicit state (an association list of
file paths to file data plus a list of directories); exceptions raised by
`shutil.copy2`, hashing, and `unlink` are modelled by an explicit
environment (`Env`) describing which of those operations raise, and what
content a copy writes (a copy may write corrupted or incomplete data).
SHA-256 itself is abstracted as an arbitrary function `hashFn` from file
data to hex-digest strings; every theorem quantifies over it, since the
code only ever branches on hex-digest string equality.
-/

/-- One half (image or video) of a manifest pair entry: mirrors the
`{"source": ..., "dest": ..., "success": ...}` dicts built in `move_pairs`. -/
structure HalfEntry where
  source : String
  dest : String
  success : Bool
deriving DecidableEq

/-- A manifest entry for one attempted pair, as appended to `manifest["pairs"]`. -/
structure PairEntry where
  uuid : String
  base_name : String
  image : HalfEntry
  video : HalfEntry
deriving DecidableEq

/-- An orphan entry, as appended to `manifest["orphan_images"]` / `["orphan_videos"]`. -/
structure OrphanEntry where
  uuid : String
  path : String
deriving DecidableEq

/-- The run manifest built by `move_pairs` (the `generated` wall-clock
timestamp and constant `version` string are omitted from the model). -/
structure Manifest where
  dest_dir : String
  pairs : List PairEntry
  orphan_images : List OrphanEntry
  orphan_videos : List OrphanEntry
deriving DecidableEq

/-- Contents of a file on disk: opaque media bytes (abstracted to a `Nat`),
or a serialized manifest (written by `main` as `live_photo_manifest.json`). -/
inductive FileData where
  | media : Nat → FileData
  | manifestFile : Manifest → FileData
deriving DecidableEq

/-- Filesystem state: file path → data association list, plus existing directories. -/
structure FS where
  files : List (String × FileData)
  dirs : List String
deriving DecidableEq

/-- Look a path up in the filesystem. -/
def fsLookup (fs : FS) (p : String) : Option FileData :=
  fs.files.lookup p

/-- `Path.exists()` for files. -/
def fsExists (fs : FS) (p : String) : Bool :=
  (fsLookup fs p).isSome

/-- Write (create or overwrite) one file, as `shutil.copy2` does at the destination. -/
def writeAssoc (l : List (String × FileData)) (p : String) (d : FileData) :
    List (String × FileData) :=
  (p, d) :: l.eraseP (fun kv => kv.1 == p)

/-- Filesystem after writing one file. -/
def fsWrite (fs : FS) (p : String) (d : FileData) : FS :=
  { fs with files := writeAssoc fs.files p d }

/-- Filesystem after an optional write (used when a raising copy may or may
not have left data at the destination). -/
def fsWriteOpt (fs : FS) (p : String) (d : Option FileData) : FS :=
  match d with
  | none => fs
  | some w => fsWrite fs p w

/-- `Path.unlink()`: remove one file. -/
def fsRemove (fs : FS) (p : String) : FS :=
  { fs with files := fs.files.eraseP (fun kv => kv.1 == p) }

/-- `dest_dir.mkdir(parents=True, exist_ok=True)` (parent creation abstracted). -/
def mkdirP (fs : FS) (d : String) : FS :=
  if d ∈ fs.dirs then fs else { fs with dirs := fs.dirs ++ [d] }

-- ### Decimal formatting (models Python `f"{n:02d}"` and `strftime` zero-padding)

/-- Decimal digit characters of `n`, most significant first; `fuel`-structured
recursion with `fuel ≥ n` (the digits of `n / 10` are computed recursively). -/
def decDigits : Nat → Nat → List Char
  | 0, _ => []
  | fuel + 1, n =>
    if n = 0 then []
    else decDigits fuel (n / 10) ++ [Char.ofNat (48 + n % 10)]

/-- Decimal representation of `n`, e.g. `decRepr 45 = ['4', '5']`. -/
def decRepr (n : Nat) : List Char :=
  if n = 0 then ['0'] else decDigits n n

/-- Zero-pad the decimal representation of `n` on the left to width `w`:
Python's `f"{n:02d}"` is `padZeros 2 n`, `strftime`'s `%Y` is `padZeros 4`. -/
def padZeros (w n : Nat) : List Char :=
  let d := decRepr n
  List.replicate (w - d.length) '0' ++ d

/-- Value of a digit string read back as a number (leading zeros ignored);
the left inverse used to prove `padZeros w` injective in `n`. -/
def numVal (l : List Char) : Nat :=
  l.foldl (fun a c => 10 * a + (c.toNat - 48)) 0

-- ### String helpers (ASCII case mapping, Path.suffix / Path.stem)

/-- ASCII lower-casing of one character (models `str.lower()` on the
ASCII extension strings the script handles). -/
def asciiLowerChar (c : Char) : Char :=
  if 'A' ≤ c ∧ c ≤ 'Z' then Char.ofNat (c.toNat + 32) else c

/-- ASCII upper-casing of one character (models `str.upper()`). -/
def asciiUpperChar (c : Char) : Char :=
  if 'a' ≤ c ∧ c ≤ 'z' then Char.ofNat (c.toNat - 32) else c

/-- `str.lower()`. -/
def strLower (s : String) : String :=
  String.mk (s.data.map asciiLowerChar)

/-- `str.upper()`. -/
def strUpper (s : String) : String :=
  String.mk (s.data.map asciiUpperChar)

/-- `Path(p).name`: the final path component. -/
def pathLastComponent (p : String) : List Char :=
  (p.data.reverse.takeWhile (fun c => c ≠ '/')).reverse

/-- `Path(p).suffix`: the extension of the final component including the
leading dot; empty when there is no dot, when the only dot leads a hidden
file name, or when the dot is the final character (pathlib's rule
`0 < rfind('.') < len(name) - 1`). -/
def path_suffix (p : String) : String :=
  let nm := pathLastComponent p
  let rev := nm.reverse
  let pre := rev.takeWhile (fun c => c ≠ '.')
  if 0 < pre.length ∧ pre.length + 1 < rev.length then
    String.mk ('.' :: pre.reverse)
  else ""

/-- `Path(p).suffix.lower()` as used on every scanned record and on the
matched image when choosing the destination extension. -/
def ext_lower (p : String) : String :=
  strLower (path_suffix p)

/-- `Path(p).stem`: final component without the suffix. -/
def path_stem (p : String) : String :=
  let nm := pathLastComponent p
  String.mk (nm.take (nm.length - (path_suffix p).length))

-- ### `datetime.strptime(dt_raw, "%Y:%m:%d %H:%M:%S")` model
-- CPython compiles the format to the anchored regex
--   (\d\d\d\d):(1[0-2]|0[1-9]|[1-9]):(3[01]|[12]\d|0[1-9]|[1-9])\s+
--   (2[0-3]|[0-1]\d|\d):([0-5]\d|\d):(6[0-1]|[0-5]\d|\d)
-- requiring full consumption of the input, then the datetime constructor
-- validates year ≥ 1 (MINYEAR), day ≤ days-in-month, second ≤ 59.

/-- A parsed timestamp. -/
structure DT where
  year : Nat
  month : Nat
  day : Nat
  hour : Nat
  minute : Nat
  second : Nat
deriving DecidableEq

/-- Numeric value of an ASCII digit, `none` otherwise. -/
def digitVal (c : Char) : Option Nat :=
  if '0' ≤ c ∧ c ≤ '9' then some (c.toNat - 48) else none

/-- All regex-style matches of a 2-digit-or-1-digit numeric field with value in
`[lo, hi]` (two-digit alternatives are listed before one-digit ones, as in
CPython's `TimeRE` patterns), with the rest of the input. -/
def parseNum (lo hi : Nat) : List Char → List (Nat × List Char)
  | c1 :: c2 :: rest =>
    (match digitVal c1, digitVal c2 with
     | some d1, some d2 =>
       if lo ≤ 10 * d1 + d2 ∧ 10 * d1 + d2 ≤ hi then [(10 * d1 + d2, rest)] else []
     | _, _ => []) ++
    (match digitVal c1 with
     | some d1 => if lo ≤ d1 ∧ d1 ≤ hi then [(d1, c2 :: rest)] else []
     | none => [])
  | [c1] =>
    (match digitVal c1 with
     | some d1 => if lo ≤ d1 ∧ d1 ≤ hi then [(d1, [])] else []
     | none => [])
  | [] => []

/-- Exactly four digits (the `%Y` pattern `\d\d\d\d`). -/
def parseYear4 : List Char → Option (Nat × List Char)
  | c1 :: c2 :: c3 :: c4 :: rest =>
    match digitVal c1, digitVal c2, digitVal c3, digitVal c4 with
    | some d1, some d2, some d3, some d4 =>
      some (d1 * 1000 + d2 * 100 + d3 * 10 + d4, rest)
    | _, _, _, _ => none
  | _ => none

/-- A literal `:` in the format. -/
def parseColon : List Char → Option (List Char)
  | ':' :: rest => some rest
  | _ => none

/-- Python regex `\s` character class. -/
def isPySpace (c : Char) : Bool :=
  c = ' ' ∨ c = '\t' ∨ c = '\n' ∨ c = '\r' ∨ c = '\x0b' ∨ c = '\x0c'

/-- `\s+`: at least one whitespace character (a space in the format string is
compiled to `\s+` by CPython's strptime). -/
def parseSpaces : List Char → Option (List Char)
  | c :: rest => if isPySpace c then some ((rest).dropWhile isPySpace) else none
  | [] => none

/-- Thread a deterministic sub-parser over a list of alternative parse states. -/
def stepOpt {α : Type} (f : List Char → Option (List Char)) :
    List (α × List Char) → List (α × List Char) :=
  fun xs => xs.filterMap (fun p => (f p.2).map (fun r => (p.1, r)))

/-- Thread the 2-or-1-digit field parser over alternative parse states. -/
def stepNum {α : Type} (lo hi : Nat) :
    List (α × List Char) → List ((α × Nat) × List Char) :=
  fun xs => xs.flatMap (fun p => (parseNum lo hi p.2).map (fun q => ((p.1, q.1), q.2)))

/-- Whether `year` is a Gregorian leap year (`calendar.isleap`). -/
def isLeap (y : Nat) : Bool :=
  (y % 4 = 0 ∧ y % 100 ≠ 0) ∨ y % 400 = 0

/-- Days in a month, as validated by `datetime.__new__`. -/
def daysInMonth (y m : Nat) : Nat :=
  if m = 2 then (if isLeap y then 29 else 28)
  else if m = 4 ∨ m = 6 ∨ m = 9 ∨ m = 11 then 30
  else 31

/-- `datetime.strptime(s, "%Y:%m:%d %H:%M:%S")`: `none` models the
`ValueError`/`TypeError` caught by `rich_base_name`. -/
def parseDT (s : String) : Option DT :=
  let s1 : List (Nat × List Char) := (parseYear4 s.data).toList
  let s2 := stepOpt parseColon s1
  let s3 := stepNum 1 12 s2
  let s4 := stepOpt parseColon s3
  let s5 := stepNum 1 31 s4
  let s6 := stepOpt parseSpaces s5
  let s7 := stepNum 0 23 s6
  let s8 := stepOpt parseColon s7
  let s9 := stepNum 0 59 s8
  let s10 := stepOpt parseColon s9
  let s11 := stepNum 0 61 s10
  match (s11.filter (fun p => p.2.isEmpty)).head? with
  | none => none
  | some ((((((y, mo), d), h), mi), sec), _) =>
    if 1 ≤ y ∧ d ≤ daysInMonth y mo ∧ sec ≤ 59 then
      some ⟨y, mo, d, h, mi, sec⟩
    else none

-- ### Raw records and `scan_folder`'s classification loop

/-- One exiftool JSON record, with the fields the classification, naming and
matching logic reads. `sourceFile = ""` models `rec.get("SourceFile", "")` on
a record lacking a path; `none` models an absent field. Passthrough fields
(GPS, Make, Description, MIME) are never read by the embedded logic. -/
structure RawRec where
  sourceFile : String
  contentIdentifier : Option String
  livePhotoVideoIndex : Option Int
  dateTimeOriginal : Option String
  model : Option String
deriving DecidableEq

/-- `IMAGE_EXTS`: extensions that can be Live Photo stills. -/
def IMAGE_EXTS : List String := [".heic", ".jpg", ".jpeg", ".png"]

/-- `VIDEO_EXTS`: extensions that can be Live Photo companions. -/
def VIDEO_EXTS : List String := [".mov"]

/-- An index `{uuid: (path, meta_dict)}` as built by `scan_folder`; insertion
order is kept (Python dicts preserve it) and lookup takes the first entry. -/
abbrev Index := List (String × String × RawRec)

/-- `if uuid not in index: index[uuid] = (path, rec)`. -/
def insertIfNew (idx : Index) (u : String) (v : String × RawRec) : Index :=
  if (idx.lookup u).isSome then idx else idx ++ [(u, v)]

/-- The body of `scan_folder`'s per-record loop: skip records lacking a
source path or a (non-empty) ContentIdentifier; a record whose lowercase
extension is an image extension is indexed as an image only when
`LivePhotoVideoIndex` is present; otherwise (`elif`) a record with a video
extension is indexed as a video; everything else is dropped. -/
def classify_step (acc : Index × Index) (rec : RawRec) : Index × Index :=
  if rec.sourceFile = "" then acc
  else
    let ext := ext_lower rec.sourceFile
    match rec.contentIdentifier with
    | none => acc
    | some uuid =>
      if uuid = "" then acc
      else if ext ∈ IMAGE_EXTS ∧ rec.livePhotoVideoIndex ≠ none then
        (insertIfNew acc.1 uuid (rec.sourceFile, rec), acc.2)
      else if ext ∈ VIDEO_EXTS then
        (acc.1, insertIfNew acc.2 uuid (rec.sourceFile, rec))
      else acc

/-- `scan_folder`'s classification of a stream of records into the
`(images, videos)` index pair (batching is irrelevant to the indices:
records are processed one by one in order). -/
def scan_records (recs : List RawRec) : Index × Index :=
  recs.foldl classify_step ([], [])

-- ### `main`'s first-seen-wins merge across sources

/-- `for uuid, val in imgs.items(): if uuid not in all: all[uuid] = val`. -/
def mergeOne (globalIdx incoming : Index) : Index :=
  incoming.foldl
    (fun g kv => if (g.lookup kv.1).isSome then g else g ++ [kv]) globalIdx

/-- `main`'s merge loop over per-source `(images, videos)` index pairs, in
the caller-given source order. -/
def merge_sources (sources : List (Index × Index)) : Index × Index :=
  sources.foldl (fun acc s => (mergeOne acc.1 s.1, mergeOne acc.2 s.2)) ([], [])

-- ### `rich_base_name`

/-- `strftime("%Y-%m-%d_%H%M%S")` of a parsed timestamp. -/
def fmtDT (t : DT) : String :=
  String.mk (padZeros 4 t.year ++ '-' :: padZeros 2 t.month ++ '-' :: padZeros 2 t.day
    ++ '_' :: padZeros 2 t.hour ++ padZeros 2 t.minute ++ padZeros 2 t.second)

/-- `uuid.replace("-", "")[:8].upper()`. -/
def uuidShort (uuid : String) : String :=
  strUpper (String.mk ((uuid.data.filter (fun c => c ≠ '-')).take 8))

/-- `str(meta.get("Model", "")).replace(" ", "").replace(",", "")`. -/
def modelCompact (model : Option String) : String :=
  String.mk ((model.getD "").data.filter (fun c => c ≠ ' ' ∧ c ≠ ','))

/-- `rich_base_name(meta, uuid)`: the sortable base filename
`YYYY-MM-DD_HHMMSS_LivePhoto_<DeviceModel>_<uuid8>` (no extension),
with sentinel date `0000-00-00_000000` on a missing or unparsable
`DateTimeOriginal` and model fallback `"iPhone"`. -/
def rich_base_name (meta : RawRec) (uuid : String) : String :=
  let date_str := match parseDT (meta.dateTimeOriginal.getD "") with
    | some t => fmtDT t
    | none => "0000-00-00_000000"
  let uuid_short := uuidShort uuid
  let model0 := modelCompact meta.model
  let model := if model0 = "" then "iPhone" else model0
  date_str ++ "_LivePhoto_" ++ model ++ "_" ++ uuid_short

-- ### `safe_dest_path`

/-- The `counter`-th candidate file name: the bare `base + ext` for
`counter = 0`, else `base_{counter:02d}{ext}`. -/
def candidateName (base ext : String) (counter : Nat) : String :=
  if counter = 0 then base ++ ext
  else base ++ "_" ++ String.mk (padZeros 2 counter) ++ ext

/-- The `while candidate.exists()` loop of `safe_dest_path`, trying
candidates `counter, counter + 1, ...`; the fuel is chosen in
`safe_dest_path` large enough that it never runs out (there are only
finitely many files, and candidate names are pairwise distinct). -/
def safe_dest_path_go (fs : FS) (destDir base ext : String) :
    Nat → Nat → String
  | 0, counter => destDir ++ "/" ++ candidateName base ext counter
  | fuel + 1, counter =>
    let c := destDir ++ "/" ++ candidateName base ext counter
    if fsExists fs c then safe_dest_path_go fs destDir base ext fuel (counter + 1)
    else c

/-- `safe_dest_path(dest_dir, base, ext)`: first non-colliding candidate. -/
def safe_dest_path (fs : FS) (destDir base ext : String) : String :=
  safe_dest_path_go fs destDir base ext (fs.files.length + 1) 0

-- ### `safe_move`: copy → SHA-256 verify → delete source

/-- Outcome of the `shutil.copy2(src, dst)` call: either it completes,
leaving data `w` at the destination (`w` may differ from the source's data
if the copy was silently corrupted — exactly the case the hash check is
for), or it raises, possibly after writing incomplete data. -/
inductive CopyOutcome where
  | ok : FileData → CopyOutcome
  | raised : Option FileData → CopyOutcome
deriving DecidableEq

/-- Environment for one `safe_move` invocation: what the copy does and
which of the subsequent fallible operations raise an exception. -/
structure Env where
  copy : CopyOutcome
  hashSrcRaises : Bool
  hashDstRaises : Bool
  unlinkSrcRaises : Bool
  unlinkDstRaises : Bool
deriving DecidableEq

/-- An environment in which every operation succeeds and the copy writes
exactly `w`. -/
def Env.clean (w : FileData) : Env :=
  ⟨CopyOutcome.ok w, false, false, false, false⟩

/-- Result of `safe_move`: the resulting filesystem, the returned boolean,
and the pair of truncated (12-character) hash prefixes that the mismatch
branch logs (`none` on every other path). -/
structure MoveResult where
  fs : FS
  ok : Bool
  mismatchLog : Option (String × String)
deriving DecidableEq

/-- First 12 characters, as in `src_hash[:12]`. -/
def take12 (s : String) : String :=
  String.mk (s.data.take 12)

/-- `sha256_file(path)`: `none` when the read raises (including when the
file does not exist), otherwise the digest of the file's data. -/
def sha256_file (hashFn : FileData → String) (fs : FS) (p : String)
    (raises : Bool) : Option String :=
  if raises then none else (fsLookup fs p).map hashFn

/-- `safe_move(src, dst)`: copy `src → dst`, hash both, and only on digest
equality delete the source; on digest mismatch log both truncated digests
and delete the destination copy; any exception is caught and yields
`False` with no further filesystem action. -/
def safe_move (hashFn : FileData → String) (fs : FS) (src dst : String)
    (env : Env) : MoveResult :=
  match env.copy with
  | CopyOutcome.raised w? => ⟨fsWriteOpt fs dst w?, false, none⟩
  | CopyOutcome.ok w =>
    let fs1 := fsWrite fs dst w
    match sha256_file hashFn fs1 src env.hashSrcRaises with
    | none => ⟨fs1, false, none⟩
    | some src_hash =>
      match sha256_file hashFn fs1 dst env.hashDstRaises with
      | none => ⟨fs1, false, none⟩
      | some dst_hash =>
        if src_hash = dst_hash then
          if env.unlinkSrcRaises then ⟨fs1, false, none⟩
          else ⟨fsRemove fs1 src, true, none⟩
        else
          if env.unlinkDstRaises then
            ⟨fs1, false, some (take12 src_hash, take12 dst_hash)⟩
          else ⟨fsRemove fs1 dst, false, some (take12 src_hash, take12 dst_hash)⟩

-- ### `move_pairs`

/-- Keys of an index (`dict.keys()`, insertion order). -/
def idxKeys (idx : Index) : List String :=
  idx.map Prod.fst

/-- Lexicographic comparison of char lists by code point, the order Python's
`sorted` uses on strings (an executable equivalent of Mathlib's `≤` on
`List Char`, see `charListLeB_iff`). -/
def charListLeB : List Char → List Char → Bool
  | [], _ => true
  | _ :: _, [] => false
  | a :: as, b :: bs => if a < b then true else if b < a then false else charListLeB as bs

/-- Lexicographic `≤` on strings, decidable by structural recursion. -/
def strLe (a b : String) : Prop :=
  charListLeB a.data b.data = true

instance : DecidableRel strLe := fun a b => by
  unfold strLe; infer_instance

/-- `sorted(set(all_images) & set(all_videos))`: matched identifiers in
lexicographic order. -/
def matchedOf (imgs vids : Index) : List String :=
  ((idxKeys imgs).dedup.filter (fun u => (idxKeys vids).contains u)).insertionSort strLe

/-- `sorted(set(all_images) - matched)`: orphan image identifiers, sorted. -/
def orphanImgsOf (imgs vids : Index) : List String :=
  ((idxKeys imgs).dedup.filter (fun u => !(idxKeys vids).contains u)).insertionSort strLe

/-- `sorted(set(all_videos) - matched)`: orphan video identifiers, sorted. -/
def orphanVidsOf (imgs vids : Index) : List String :=
  ((idxKeys vids).dedup.filter (fun u => !(idxKeys imgs).contains u)).insertionSort strLe

/-- Path stored in an index for an identifier (`""` if absent — unreachable
for matched/orphan identifiers). -/
def idxPath (idx : Index) (u : String) : String :=
  ((idx.lookup u).map Prod.fst).getD ""

/-- One iteration of `move_pairs`' main loop: name the pair, choose both
destination paths (both against the filesystem as it is before either
half moves), move the image then the video, and append the manifest entry. -/
def process_pair (hashFn : FileData → String) (destDir : String)
    (imgs vids : Index) (envs : String → Env × Env)
    (st : FS × List PairEntry) (u : String) : FS × List PairEntry :=
  match imgs.lookup u, vids.lookup u with
  | some (img_path, img_meta), some (vid_path, _) =>
    let base := rich_base_name img_meta u
    let img_ext := ext_lower img_path
    let dest_img := safe_dest_path st.1 destDir base img_ext
    let dest_vid := safe_dest_path st.1 destDir base ".mov"
    let r1 := safe_move hashFn st.1 img_path dest_img (envs u).1
    let r2 := safe_move hashFn r1.fs vid_path dest_vid (envs u).2
    (r2.fs, st.2 ++ [⟨u, base, ⟨img_path, dest_img, r1.ok⟩, ⟨vid_path, dest_vid, r2.ok⟩⟩])
  | _, _ => st

/-- Result of one `move_pairs` run: final filesystem, returned manifest,
and the identifier lists it iterates for pair processing / orphan
reporting (identical in dry and real runs, both derived from the same
matched/orphan sets). -/
structure RunResult where
  fs : FS
  manifest : Manifest
  matchedReport : List String
  orphanImgReport : List String
  orphanVidReport : List String
deriving DecidableEq

/-- `move_pairs(all_images, all_videos, dest_dir, dry_run)`. The
destination directory is created first (before the dry-run branch); a
dry run then only reports; a real run processes every matched pair in
sorted order and appends orphan entries. Cooperative cancellation
(`_running`) is not modelled: runs are taken to completion. -/
def move_pairs (hashFn : FileData → String) (imgs vids : Index)
    (destDir : String) (envs : String → Env × Env) (dryRun : Bool)
    (fs : FS) : RunResult :=
  let fs0 := mkdirP fs destDir
  let matched := matchedOf imgs vids
  let orphImgs := orphanImgsOf imgs vids
  let orphVids := orphanVidsOf imgs vids
  if dryRun then
    ⟨fs0, ⟨destDir, [], [], []⟩, matched, orphImgs, orphVids⟩
  else
    let st := matched.foldl (process_pair hashFn destDir imgs vids envs) (fs0, [])
    ⟨st.1,
     ⟨destDir, st.2,
      orphImgs.map (fun u => ⟨u, idxPath imgs u⟩),
      orphVids.map (fun u => ⟨u, idxPath vids u⟩)⟩,
     matched, orphImgs, orphVids⟩

/-- The core of `main`: merge per-source index pairs (first-seen-wins),
run `move_pairs`, and, only when not a dry run, write the manifest JSON
to `dest_dir/live_photo_manifest.json`. -/
def main_run (hashFn : FileData → String) (sources : List (Index × Index))
    (destDir : String) (envs : String → Env × Env) (dryRun : Bool)
    (fs : FS) : RunResult :=
  let gidx := merge_sources sources
  let r := move_pairs hashFn gidx.1 gidx.2 destDir envs dryRun fs
  if dryRun then r
  else { r with
         fs := fsWrite r.fs (destDir ++ "/live_photo_manifest.json")
                 (FileData.manifestFile r.manifest) }

instance : IsTotal String strLe :=
  ⟨fun a b => by
    unfold strLe
    generalize a.data = l₁
    generalize b.data = l₂
    induction l₁ generalizing l₂ with
    | nil => exact Or.inl rfl
    | cons x xs ih =>
      cases l₂ with
      | nil => exact Or.inr rfl
      | cons y ys =>
        by_cases hxy : x < y
        · exact Or.inl (by simp [charListLeB, hxy])
        · by_cases hyx : y < x
          · exact Or.inr (by simp [charListLeB, hyx])
          · rcases ih ys with h | h
            · exact Or.inl (by simp [charListLeB, hxy, hyx, h])
            · exact Or.inr (by simp [charListLeB, hxy, hyx, h])⟩

instance : IsTrans String strLe :=
  ⟨fun a b c hab hbc => by
    unfold strLe at hab hbc ⊢
    revert hab hbc
    generalize a.data = l₁
    generalize b.data = l₂
    generalize c.data = l₃
    intro hab hbc
    induction l₁ generalizing l₂ l₃ with
    | nil => rfl
    | cons x xs ih =>
      cases l₂ with
      | nil => exact absurd hab (by simp [charListLeB])
      | cons y ys =>
        cases l₃ with
        | nil => exact absurd hbc (by simp [charListLeB])
        | cons z zs =>
          by_cases hxy : x < y
          · by_cases hyz : y < z
            · simp [charListLeB, lt_trans hxy hyz]
            · by_cases hzy : z < y
              · exact absurd hbc (by simp [charListLeB, hyz, hzy])
              · have : y = z := le_antisymm (le_of_not_lt hzy) (le_of_not_lt hyz)
                subst this
                simp [charListLeB, hxy]
          · by_cases hyx : y < x
            · exact absurd hab (by simp [charListLeB, hxy, hyx])
            · have hxye : x = y := le_antisymm (le_of_not_lt hyx) (le_of_not_lt hxy)
              subst hxye
              rw [show charListLeB (x :: xs) (x :: ys) = charListLeB xs ys by
                simp [charListLeB]] at hab
              by_cases hyz : x < z
              · simp [charListLeB, hyz]
              · by_cases hzy : z < x
                · exact absurd hbc (by simp [charListLeB, hyz, hzy])
                · have : x = z := le_antisymm (le_of_not_lt hzy) (le_of_not_lt hyz)
                  subst this
                  rw [show charListLeB (x :: ys) (x :: zs) = charListLeB ys zs by
                    simp [charListLeB]] at hbc
                  rw [show charListLeB (x :: xs) (x :: zs) = charListLeB xs zs by
                    simp [charListLeB]]
                  exact ih ys zs hab hbc⟩

/-- Full destination candidate path for a given counter value. -/
def candidatePath (destDir base ext : String) (counter : Nat) : String :=
  destDir ++ "/" ++ candidateName base ext counter

-- ### Concrete fixtures used by witnesses and concrete runs

/-- A concrete digest function for concrete runs: two-digit decimal of the
media payload (injective on the sample contents used below). -/
def hashNat : FileData → String
  | FileData.media n => String.mk (padZeros 2 n)
  | FileData.manifestFile _ => "manifest"

/-- Sample matched pair records: pair `AAAA0000-X` and pair `BBBB0000-X`,
no capture date and no device model (so base names use the sentinel date
and the `iPhone` fallback). -/
def recImgA : RawRec := ⟨"/s/1.heic", some "AAAA0000-X", some 3, none, none⟩

def recVidA : RawRec := ⟨"/s/1.mov", some "AAAA0000-X", none, none, none⟩

def recImgB : RawRec := ⟨"/s/2.heic", some "BBBB0000-X", some 3, none, none⟩

def recVidB : RawRec := ⟨"/s/2.mov", some "BBBB0000-X", none, none, none⟩

def sampleImgs : Index :=
  [("BBBB0000-X", "/s/2.heic", recImgB), ("AAAA0000-X", "/s/1.heic", recImgA)]

def sampleVids : Index :=
  [("AAAA0000-X", "/s/1.mov", recVidA), ("BBBB0000-X", "/s/2.mov", recVidB)]

def sampleFS : FS :=
  ⟨[("/s/1.heic", FileData.media 1), ("/s/1.mov", FileData.media 2),
    ("/s/2.heic", FileData.media 4), ("/s/2.mov", FileData.media 5)], []⟩

/-- Environments for the hash-mismatch scenario: pair A's video copy writes
corrupted data (`media 3` instead of the source's `media 2`); everything
else copies faithfully. -/
def mismatchEnvs : String → Env × Env := fun u =>
  if u = "AAAA0000-X" then
    (Env.clean (FileData.media 1),
     ⟨CopyOutcome.ok (FileData.media 3), false, false, false, false⟩)
  else (Env.clean (FileData.media 4), Env.clean (FileData.media 5))

-- ### C2 (fixtures and evaluation)

/-- C2 fixture: one matched pair whose computed base name already exists in
the destination as a `.heic` (but not as a `.mov`). -/
def recImgC2 : RawRec := ⟨"/src/a.heic", some "ABCD1234-EF", some 3, none, none⟩

def recVidC2 : RawRec := ⟨"/src/a.mov", some "ABCD1234-EF", none, none, none⟩

def c2Imgs : Index := [("ABCD1234-EF", "/src/a.heic", recImgC2)]

def c2Vids : Index := [("ABCD1234-EF", "/src/a.mov", recVidC2)]

def c2FS : FS :=
  ⟨[("/dest/0000-00-00_000000_LivePhoto_iPhone_ABCD1234.heic", FileData.media 9),
    ("/src/a.heic", FileData.media 1), ("/src/a.mov", FileData.media 2)], ["/dest"]⟩

/-- Environments in which both copies are faithful and nothing raises. -/
def cleanEnvs12 : String → Env × Env := fun _ =>
  (Env.clean (FileData.media 1), Env.clean (FileData.media 2))

-- ### C5 (fixtures, counterexample, amended statement)

/-- C5 fixture: two distinct pairs whose identifiers share the first eight
characters (`ABCD1234`), hence the same computed base name. Pair 1's image
copy raises before writing anything; every other copy is faithful. -/
def recImg5a : RawRec := ⟨"/s/1.heic", some "ABCD1234-1", some 3, none, none⟩

def recVid5a : RawRec := ⟨"/s/1.mov", some "ABCD1234-1", none, none, none⟩

def recImg5b : RawRec := ⟨"/s/2.heic", some "ABCD1234-2", some 3, none, none⟩

def recVid5b : RawRec := ⟨"/s/2.mov", some "ABCD1234-2", none, none, none⟩

def c5Imgs : Index :=
  [("ABCD1234-1", "/s/1.heic", recImg5a), ("ABCD1234-2", "/s/2.heic", recImg5b)]

def c5Vids : Index :=
  [("ABCD1234-1", "/s/1.mov", recVid5a), ("ABCD1234-2", "/s/2.mov", recVid5b)]

def c5FS : FS :=
  ⟨[("/s/1.heic", FileData.media 1), ("/s/1.mov", FileData.media 2),
    ("/s/2.heic", FileData.media 3), ("/s/2.mov", FileData.media 4)], []⟩

def c5Envs : String → Env × Env := fun u =>
  if u = "ABCD1234-1" then
    (⟨CopyOutcome.raised none, false, false, false, false⟩, Env.clean (FileData.media 2))
  else (Env.clean (FileData.media 3), Env.clean (FileData.media 4))

-- ### C4

/-- C4 fixture: the spec's scenario record — identifier `ABCD1234-…`,
capture time `2024:03:01 10:15:22`, model `iPhone 15 Pro`. -/
def c4Meta : RawRec :=
  ⟨"/a/x.heic", some "ABCD1234-AAAA-BBBB-CCCC-DDDDDDDDDDDD", some 3,
   some "2024:03:01 10:15:22", some "iPhone 15 Pro"⟩

-- ### C8

/-- C8 fixture: two sources indexing the same identifier to different records. -/
def c8A : Index × Index :=
  ([("U", "/a/1.heic", recImgA)], [("U", "/a/1.mov", recVidA)])

def c8B : Index × Index :=
  ([("U", "/b/2.heic", recImgB)], [("U", "/b/2.mov", recVidB)])

-- ### Association-list lookup lemmas

theorem lookup_eraseP_ne {β : Type} {l : List (String × β)} {p q : String}
    (h : q ≠ p) : (l.eraseP (fun kv => kv.1 == p)).lookup q = l.lookup q := by
  induction l with
  | nil => rfl
  | cons kv t ih =>
    rcases kv with ⟨k, v⟩
    by_cases hk : k = p
    · have h1 : (k == p) = true := by simpa using hk
      have h2 : (q == k) = false := by
        simp only [beq_eq_false_iff_ne, ne_eq]
        exact fun hqk => h (hqk.trans hk)
      simp [List.eraseP_cons, h1, List.lookup, h2]
    · have h1 : (k == p) = false := by simp [beq_eq_false_iff_ne, hk]
      simp only [List.eraseP_cons, h1, cond_false]
      cases hq : q == k with
      | true => simp [List.lookup, hq]
      | false => simp [List.lookup, hq, ih]

theorem fsLookup_write_self (fs : FS) (p : String) (d : FileData) :
    fsLookup (fsWrite fs p d) p = some d := by
  simp [fsLookup, fsWrite, writeAssoc, List.lookup]

theorem fsLookup_write_ne (fs : FS) {p q : String} (d : FileData) (h : q ≠ p) :
    fsLookup (fsWrite fs p d) q = fsLookup fs q := by
  simp only [fsLookup, fsWrite, writeAssoc, List.lookup,
    beq_eq_false_iff_ne, h, ne_eq, not_false_eq_true, beq_self_eq_true]
  rw [show (q == p) = false by simp [beq_eq_false_iff_ne, h]]
  exact lookup_eraseP_ne h

theorem fsLookup_remove_ne (fs : FS) {p q : String} (h : q ≠ p) :
    fsLookup (fsRemove fs p) q = fsLookup fs q := by
  simp only [fsLookup, fsRemove]
  exact lookup_eraseP_ne h

theorem fsLookup_writeOpt_ne (fs : FS) {p q : String} (d : Option FileData) (h : q ≠ p) :
    fsLookup (fsWriteOpt fs p d) q = fsLookup fs q := by
  cases d with
  | none => rfl
  | some w => exact fsLookup_write_ne fs w h

theorem lookup_mem_keys {β : Type} {l : List (String × β)} {p : String} {d : β}
    (h : l.lookup p = some d) : p ∈ l.map Prod.fst := by
  induction l with
  | nil => simp [List.lookup] at h
  | cons kv t ih =>
    by_cases hq : p = kv.1
    · simp [List.map_cons, hq]
    · rw [List.lookup, show (p == kv.1) = false by simp [beq_eq_false_iff_ne, hq]] at h
      simp [List.map_cons, ih h]

theorem numVal_append_digit (l : List Char) (c : Char) :
    numVal (l ++ [c]) = 10 * numVal l + (c.toNat - 48) := by
  simp [numVal, List.foldl_append]

theorem toNat_ofNat_digit {d : Nat} (h : d < 10) :
    (Char.ofNat (48 + d)).toNat = 48 + d := by
  interval_cases d <;> decide

theorem numVal_decDigits : ∀ fuel n, n ≤ fuel → numVal (decDigits fuel n) = n := by
  intro fuel
  induction fuel with
  | zero => intro n h; interval_cases n; decide
  | succ fuel ih =>
    intro n h
    by_cases h0 : n = 0
    · simp [decDigits, h0, numVal]
    · rw [decDigits, if_neg h0, numVal_append_digit, ih (n / 10) ?bound,
        toNat_ofNat_digit (Nat.mod_lt n (by norm_num))]
      · omega
      case bound =>
        have h1 : n / 10 < n := Nat.div_lt_self (Nat.pos_of_ne_zero h0) (by norm_num)
        omega

theorem numVal_zero_cons (l : List Char) : numVal ('0' :: l) = numVal l := by
  simp [numVal, List.foldl_cons]

theorem numVal_replicate_zero (k : Nat) (l : List Char) :
    numVal (List.replicate k '0' ++ l) = numVal l := by
  induction k with
  | zero => simp
  | succ k ih => simpa [List.replicate_succ, numVal_zero_cons] using ih

theorem numVal_decRepr (n : Nat) : numVal (decRepr n) = n := by
  by_cases h0 : n = 0
  · simp [decRepr, h0]; decide
  · rw [decRepr, if_neg h0]; exact numVal_decDigits n n le_rfl

theorem numVal_padZeros (w n : Nat) : numVal (padZeros w n) = n := by
  rw [padZeros, numVal_replicate_zero, numVal_decRepr]

theorem padZeros_injective (w : Nat) : Function.Injective (padZeros w) := by
  intro a b h
  have := congrArg numVal h
  rwa [numVal_padZeros, numVal_padZeros] at this

-- ### More association-list lemmas (shared by merge and pair processing)

theorem mem_keys_lookup_isSome {β : Type} {l : List (String × β)} {p : String}
    (h : p ∈ l.map Prod.fst) : (l.lookup p).isSome := by
  induction l with
  | nil => simp at h
  | cons kv t ih =>
    by_cases hq : p = kv.1
    · rw [List.lookup, show (p == kv.1) = true by simpa using hq]
      rfl
    · rw [List.lookup, show (p == kv.1) = false by simp [beq_eq_false_iff_ne, hq]]
      exact ih (by simpa [List.map_cons, hq] using h)

theorem lookup_append {β : Type} (l₁ l₂ : List (String × β)) (p : String) :
    (l₁ ++ l₂).lookup p = ((l₁.lookup p).orElse (fun _ => l₂.lookup p)) := by
  induction l₁ with
  | nil => simp [List.lookup]
  | cons kv t ih =>
    cases hq : p == kv.1 with
    | true => simp [List.lookup, hq]
    | false => simp [List.lookup, hq, ih]

-- ### Lexicographic order: `strLe` agrees with Mathlib's `≤` on `String`

theorem charListLeB_iff : ∀ l₁ l₂ : List Char,
    charListLeB l₁ l₂ = true ↔ ¬ List.Lex (· < ·) l₂ l₁ := by
  intro l₁
  induction l₁ with
  | nil =>
    intro l₂
    simp only [charListLeB, true_iff]
    intro h
    cases h
  | cons a as ih =>
    intro l₂
    cases l₂ with
    | nil =>
      refine iff_of_false (by simp [charListLeB]) (not_not_intro List.Lex.nil)
    | cons b bs =>
      by_cases hab : a < b
      · rw [show charListLeB (a :: as) (b :: bs) = true by simp [charListLeB, hab]]
        refine iff_of_true rfl fun h => ?_
        cases h with
        | cons h' => exact absurd hab (lt_irrefl a)
        | rel h' => exact absurd hab (asymm h')
      · by_cases hba : b < a
        · rw [show charListLeB (a :: as) (b :: bs) = false by
            simp [charListLeB, hab, hba]]
          exact iff_of_false (by simp) (not_not_intro (List.Lex.rel hba))
        · have heq : a = b := le_antisymm (le_of_not_lt hba) (le_of_not_lt hab)
          subst heq
          rw [show charListLeB (a :: as) (a :: bs) = charListLeB as bs by
            simp [charListLeB, hab]]
          rw [ih bs]
          constructor
          · intro h hlex
            cases hlex with
            | cons h' => exact h h'
            | rel h' => exact absurd h' (lt_irrefl a)
          · intro h hlex
            exact h (List.Lex.cons hlex)

theorem strLe_iff (a b : String) : strLe a b ↔ a ≤ b := by
  rw [strLe, charListLeB_iff]
  constructor
  · intro h
    rw [String.le_iff_toList_le]
    exact not_lt.mp h
  · intro h
    rw [String.le_iff_toList_le] at h
    exact not_lt.mpr h

theorem sorted_strLe_imp_le {l : List String} (h : List.Sorted strLe l) :
    List.Sorted (· ≤ ·) l :=
  h.imp (fun hab => (strLe_iff _ _).mp hab)

-- ### `safe_dest_path` correctness: candidate names are pairwise distinct,
-- so the existence loop always finds a free name within `|files| + 1` tries.

theorem padZeros_length_pos (w n : Nat) : 0 < (padZeros w n).length := by
  rw [padZeros]
  by_cases h0 : n = 0
  · simp [decRepr, h0]
  · simp only [List.length_append, List.length_replicate]
    have : decRepr n ≠ [] := by
      rw [decRepr, if_neg h0]
      cases hn : n with
      | zero => exact absurd hn h0
      | succ m =>
        rw [decDigits, if_neg (by omega)]
        simp
    have := List.length_pos.mpr this
    omega

theorem candidateName_injective (base ext : String) {i j : Nat}
    (h : candidateName base ext i = candidateName base ext j) : i = j := by
  have hdata := congrArg String.data h
  by_cases hi : i = 0
  · by_cases hj : j = 0
    · omega
    · exfalso
      rw [candidateName, if_pos hi, candidateName, if_neg hj] at hdata
      have := congrArg List.length hdata
      simp only [String.data_append, List.length_append] at this
      have hp := padZeros_length_pos 2 j
      simp only [show ("_" : String).data.length = 1 from rfl] at this
      omega
  · by_cases hj : j = 0
    · exfalso
      rw [candidateName, if_neg hi, candidateName, if_pos hj] at hdata
      have := congrArg List.length hdata
      simp only [String.data_append, List.length_append] at this
      have hp := padZeros_length_pos 2 i
      simp only [show ("_" : String).data.length = 1 from rfl] at this
      omega
    · rw [candidateName, if_neg hi, candidateName, if_neg hj] at hdata
      simp only [String.data_append, List.append_assoc] at hdata
      have h1 := List.append_cancel_left (List.append_cancel_left hdata)
      have h2 := List.append_cancel_right h1
      exact padZeros_injective 2 (by simpa using h2)

theorem candidatePath_injective (destDir base ext : String) {i j : Nat}
    (h : candidatePath destDir base ext i = candidatePath destDir base ext j) : i = j := by
  apply candidateName_injective base ext
  have hdata := congrArg String.data h
  simp only [candidatePath, String.data_append, List.append_assoc] at hdata
  have h1 := List.append_cancel_left (List.append_cancel_left hdata)
  cases hc1 : candidateName base ext i with
  | mk d1 =>
    cases hc2 : candidateName base ext j with
    | mk d2 =>
      rw [hc1, hc2] at h1
      exact congrArg String.mk h1

theorem all_exist_le_length (fs : FS) (destDir base ext : String) (fuel counter : Nat)
    (hall : ∀ k, k < fuel → fsExists fs (candidatePath destDir base ext (counter + k)) = true) :
    fuel ≤ fs.files.length := by
  have hmap : ((List.range fuel).map
      (fun k => candidatePath destDir base ext (counter + k))).Nodup := by
    refine (List.nodup_range fuel).map ?_
    intro k₁ k₂ hk
    have := candidatePath_injective destDir base ext hk
    omega
  have hsub : ((List.range fuel).map
      (fun k => candidatePath destDir base ext (counter + k))) ⊆ fs.files.map Prod.fst := by
    intro p hp
    rcases List.mem_map.mp hp with ⟨k, hk, rfl⟩
    have hex := hall k (List.mem_range.mp hk)
    rw [fsExists, Option.isSome_iff_exists] at hex
    rcases hex with ⟨d, hd⟩
    exact lookup_mem_keys hd
  have := (hmap.subperm hsub).length_le
  simpa using this

theorem go_free (fs : FS) (destDir base ext : String) :
    ∀ fuel counter,
      (∃ k, k < fuel ∧ fsExists fs (candidatePath destDir base ext (counter + k)) = false) →
      fsExists fs (safe_dest_path_go fs destDir base ext fuel counter) = false := by
  intro fuel
  induction fuel with
  | zero => intro counter h; rcases h with ⟨k, hk, _⟩; omega
  | succ fuel ih =>
    intro counter h
    rw [safe_dest_path_go]
    cases hc : fsExists fs (destDir ++ "/" ++ candidateName base ext counter) with
    | false => simpa using hc
    | true =>
      simp only [hc, if_true]
      apply ih
      rcases h with ⟨k, hk, hfree⟩
      cases k with
      | zero =>
        exfalso
        rw [Nat.add_zero] at hfree
        rw [candidatePath] at hfree
        rw [hfree] at hc
        exact Bool.noConfusion hc
      | succ k' =>
        exact ⟨k', by omega, by rw [show counter + 1 + k' = counter + (k' + 1) by omega]; exact hfree⟩

theorem safe_dest_path_free (fs : FS) (destDir base ext : String) :
    fsExists fs (safe_dest_path fs destDir base ext) = false := by
  rw [safe_dest_path]
  apply go_free
  by_contra hnone
  push_neg at hnone
  have hall : ∀ k, k < fs.files.length + 1 →
      fsExists fs (candidatePath destDir base ext (0 + k)) = true := by
    intro k hk
    have := hnone k hk
    cases hb : fsExists fs (candidatePath destDir base ext (0 + k)) with
    | false => exact absurd hb this
    | true => rfl
  have := all_exist_le_length fs destDir base ext (fs.files.length + 1) 0 hall
  omega

theorem safe_dest_path_no_collision (fs : FS) (destDir base ext : String) (p : String)
    (hp : fsExists fs p = true) : safe_dest_path fs destDir base ext ≠ p := by
  intro heq
  have := safe_dest_path_free fs destDir base ext
  rw [heq, hp] at this
  exact Bool.noConfusion this

theorem safe_dest_path_of_free (fs : FS) (destDir base ext : String)
    (h : fsExists fs (destDir ++ "/" ++ (base ++ ext)) = false) :
    safe_dest_path fs destDir base ext = destDir ++ "/" ++ (base ++ ext) := by
  rw [safe_dest_path, safe_dest_path_go]
  rw [show candidateName base ext 0 = base ++ ext from rfl]
  rw [h]
  simp

-- ### Merge lemmas

theorem mergeOne_lookup (g inc : Index) (u : String) :
    (mergeOne g inc).lookup u =
      ((g.lookup u).orElse (fun _ => inc.lookup u)) := by
  induction inc generalizing g with
  | nil =>
    rw [mergeOne, List.foldl_nil]
    cases h : g.lookup u <;> rfl
  | cons kv t ih =>
    rcases kv with ⟨k, v⟩
    rw [mergeOne, List.foldl_cons]
    change (mergeOne (if (g.lookup k).isSome then g else g ++ [(k, v)]) t).lookup u = _
    by_cases hk : (g.lookup k).isSome
    · rw [if_pos hk, ih g]
      by_cases hu : u = k
      · subst hu
        rcases Option.isSome_iff_exists.mp hk with ⟨d, hd⟩
        rw [hd]
        rfl
      · have hf : (u == k) = false := by simp [beq_eq_false_iff_ne, hu]
        cases h : g.lookup u <;> simp [List.lookup, hf]
    · rw [if_neg hk, ih (g ++ [(k, v)]), lookup_append]
      by_cases hu : u = k
      · subst hu
        rw [Option.not_isSome_iff_eq_none.mp hk]
        simp [List.lookup]
      · have hf : (u == k) = false := by simp [beq_eq_false_iff_ne, hu]
        cases h : g.lookup u <;> simp [List.lookup, hf]

theorem merge_sources_two (A B : Index × Index) (u : String) :
    (merge_sources [A, B]).1.lookup u =
        ((A.1.lookup u).orElse (fun _ => B.1.lookup u)) ∧
      (merge_sources [A, B]).2.lookup u =
        ((A.2.lookup u).orElse (fun _ => B.2.lookup u)) := by
  have h1 : merge_sources [A, B] =
      (mergeOne (mergeOne [] A.1) B.1, mergeOne (mergeOne [] A.2) B.2) := rfl
  rw [h1]
  constructor
  · rw [mergeOne_lookup, mergeOne_lookup]
    simp [List.lookup]
  · rw [mergeOne_lookup, mergeOne_lookup]
    simp [List.lookup]

theorem insertIfNew_of_isSome {idx : Index} {u : String} (v : String × RawRec)
    (h : (idx.lookup u).isSome) : insertIfNew idx u v = idx := by
  rw [insertIfNew, if_pos h]

theorem insertIfNew_lookup_of_none {idx : Index} {u : String} (v : String × RawRec)
    (h : idx.lookup u = none) : (insertIfNew idx u v).lookup u = some v := by
  rw [insertIfNew, if_neg (by simp [h]), lookup_append, h]
  simp [List.lookup]

-- ### Small structural lemmas

theorem mkdirP_files (fs : FS) (d : String) : (mkdirP fs d).files = fs.files := by
  rw [mkdirP]
  split <;> rfl

theorem lookup_eraseP_self_of_none {β : Type} {l : List (String × β)} {p : String}
    (h : l.lookup p = none) : (l.eraseP (fun kv => kv.1 == p)).lookup p = none := by
  induction l with
  | nil => rfl
  | cons kv t ih =>
    rcases kv with ⟨k, v⟩
    by_cases hk : p = k
    · rw [List.lookup, show (p == k) = true by simpa using hk] at h
      exact Option.noConfusion h
    · rw [List.lookup, show (p == k) = false by simp [beq_eq_false_iff_ne, hk]] at h
      rw [List.eraseP_cons, show (k == p) = false by
        simp [beq_eq_false_iff_ne]; exact fun he => hk he.symm]
      rw [cond_false, List.lookup, show (p == k) = false by simp [beq_eq_false_iff_ne, hk]]
      exact ih h

theorem fsLookup_remove_write_self (fs : FS) (p : String) (w : FileData)
    (h : fsLookup fs p = none) : fsLookup (fsRemove (fsWrite fs p w) p) p = none := by
  rw [fsRemove, fsWrite, writeAssoc]
  show (((p, w) :: fs.files.eraseP (fun kv => kv.1 == p)).eraseP
    (fun kv => kv.1 == p)).lookup p = none
  rw [List.eraseP_cons, show (p == p) = true by simp, cond_true]
  exact lookup_eraseP_self_of_none h

theorem image_exts_not_video {s : String} (h : s ∈ IMAGE_EXTS) : s ∉ VIDEO_EXTS := by
  fin_cases h <;> decide

-- ### `safe_move` path equations (one per control-flow path of the function)

theorem safe_move_eq_raised (hashFn : FileData → String) (fs : FS) (src dst : String)
    (env : Env) (w? : Option FileData) (h : env.copy = CopyOutcome.raised w?) :
    safe_move hashFn fs src dst env = ⟨fsWriteOpt fs dst w?, false, none⟩ := by
  simp [safe_move, h]

theorem safe_move_eq_srcHashRaise (hashFn : FileData → String) (fs : FS) (src dst : String)
    (env : Env) (w : FileData) (hc : env.copy = CopyOutcome.ok w)
    (h : env.hashSrcRaises = true) :
    safe_move hashFn fs src dst env = ⟨fsWrite fs dst w, false, none⟩ := by
  simp [safe_move, hc, sha256_file, h]

theorem safe_move_eq_srcMissing (hashFn : FileData → String) (fs : FS) (src dst : String)
    (env : Env) (w : FileData) (hc : env.copy = CopyOutcome.ok w)
    (h : env.hashSrcRaises = false) (hsrc : fsLookup (fsWrite fs dst w) src = none) :
    safe_move hashFn fs src dst env = ⟨fsWrite fs dst w, false, none⟩ := by
  simp [safe_move, hc, sha256_file, h, hsrc]

theorem safe_move_eq_dstHashRaise (hashFn : FileData → String) (fs : FS) (src dst : String)
    (env : Env) (w c : FileData) (hc : env.copy = CopyOutcome.ok w)
    (h1 : env.hashSrcRaises = false) (hsrc : fsLookup (fsWrite fs dst w) src = some c)
    (h2 : env.hashDstRaises = true) :
    safe_move hashFn fs src dst env = ⟨fsWrite fs dst w, false, none⟩ := by
  simp [safe_move, hc, sha256_file, h1, hsrc, h2]

theorem safe_move_eq_match (hashFn : FileData → String) (fs : FS) (src dst : String)
    (env : Env) (w c : FileData) (hc : env.copy = CopyOutcome.ok w)
    (h1 : env.hashSrcRaises = false) (hsrc : fsLookup (fsWrite fs dst w) src = some c)
    (h2 : env.hashDstRaises = false) (heq : hashFn c = hashFn w)
    (h3 : env.unlinkSrcRaises = false) :
    safe_move hashFn fs src dst env = ⟨fsRemove (fsWrite fs dst w) src, true, none⟩ := by
  simp [safe_move, hc, sha256_file, h1, hsrc, h2, fsLookup_write_self, heq, h3]

theorem safe_move_eq_match_unlinkRaise (hashFn : FileData → String) (fs : FS)
    (src dst : String) (env : Env) (w c : FileData) (hc : env.copy = CopyOutcome.ok w)
    (h1 : env.hashSrcRaises = false) (hsrc : fsLookup (fsWrite fs dst w) src = some c)
    (h2 : env.hashDstRaises = false) (heq : hashFn c = hashFn w)
    (h3 : env.unlinkSrcRaises = true) :
    safe_move hashFn fs src dst env = ⟨fsWrite fs dst w, false, none⟩ := by
  simp [safe_move, hc, sha256_file, h1, hsrc, h2, fsLookup_write_self, heq, h3]

theorem safe_move_eq_mismatch (hashFn : FileData → String) (fs : FS) (src dst : String)
    (env : Env) (w c : FileData) (hc : env.copy = CopyOutcome.ok w)
    (h1 : env.hashSrcRaises = false) (hsrc : fsLookup (fsWrite fs dst w) src = some c)
    (h2 : env.hashDstRaises = false) (hne : hashFn c ≠ hashFn w)
    (h3 : env.unlinkDstRaises = false) :
    safe_move hashFn fs src dst env =
      ⟨fsRemove (fsWrite fs dst w) dst, false,
        some (take12 (hashFn c), take12 (hashFn w))⟩ := by
  simp [safe_move, hc, sha256_file, h1, hsrc, h2, fsLookup_write_self, hne, h3]

theorem safe_move_eq_mismatch_unlinkRaise (hashFn : FileData → String) (fs : FS)
    (src dst : String) (env : Env) (w c : FileData) (hc : env.copy = CopyOutcome.ok w)
    (h1 : env.hashSrcRaises = false) (hsrc : fsLookup (fsWrite fs dst w) src = some c)
    (h2 : env.hashDstRaises = false) (hne : hashFn c ≠ hashFn w)
    (h3 : env.unlinkDstRaises = true) :
    safe_move hashFn fs src dst env =
      ⟨fsWrite fs dst w, false, some (take12 (hashFn c), take12 (hashFn w))⟩ := by
  simp [safe_move, hc, sha256_file, h1, hsrc, h2, fsLookup_write_self, hne, h3]

-- ### C1

/-- C1: for every invocation of `safe_move`, the source file is deleted only
on the execution path where the digest of the source equals the digest of
the freshly written destination copy (copy completed, no hashing or unlink
exception, digests equal, and the call returns success); whenever the call
returns failure — digest mismatch or any exception before the deletion
step — the source file is still in place with its original contents. -/
theorem safe_move_deletes_source_only_after_verification
    (hashFn : FileData → String) (fs : FS) (src dst : String) (env : Env)
    (c : FileData) (hne : src ≠ dst) (hsrc : fsLookup fs src = some c) :
    (fsLookup (safe_move hashFn fs src dst env).fs src = none →
      ∃ w, env.copy = CopyOutcome.ok w ∧ env.hashSrcRaises = false ∧
        env.hashDstRaises = false ∧ env.unlinkSrcRaises = false ∧
        hashFn c = hashFn w ∧ (safe_move hashFn fs src dst env).ok = true) ∧
    ((safe_move hashFn fs src dst env).ok = false →
      fsLookup (safe_move hashFn fs src dst env).fs src = some c) := by
  obtain ⟨cp, hsr, hdr, usr, udr⟩ := env
  have hsrc1 : ∀ w, fsLookup (fsWrite fs dst w) src = some c := fun w =>
    (fsLookup_write_ne fs w hne).trans hsrc
  cases cp with
  | raised w? =>
    rw [safe_move_eq_raised hashFn fs src dst _ w? rfl]
    have hkeep : fsLookup (fsWriteOpt fs dst w?) src = some c :=
      (fsLookup_writeOpt_ne fs w? hne).trans hsrc
    exact ⟨fun habs => Option.noConfusion (hkeep.symm.trans habs), fun _ => hkeep⟩
  | ok w =>
    cases hsr with
    | true =>
      rw [safe_move_eq_srcHashRaise hashFn fs src dst _ w rfl rfl]
      exact ⟨fun habs => Option.noConfusion ((hsrc1 w).symm.trans habs),
             fun _ => hsrc1 w⟩
    | false =>
      cases hdr with
      | true =>
        rw [safe_move_eq_dstHashRaise hashFn fs src dst _ w c rfl rfl (hsrc1 w) rfl]
        exact ⟨fun habs => Option.noConfusion ((hsrc1 w).symm.trans habs),
               fun _ => hsrc1 w⟩
      | false =>
        by_cases heq : hashFn c = hashFn w
        · cases usr with
          | true =>
            rw [safe_move_eq_match_unlinkRaise hashFn fs src dst _ w c rfl rfl
              (hsrc1 w) rfl heq rfl]
            exact ⟨fun habs => Option.noConfusion ((hsrc1 w).symm.trans habs),
                   fun _ => hsrc1 w⟩
          | false =>
            rw [safe_move_eq_match hashFn fs src dst _ w c rfl rfl (hsrc1 w) rfl heq rfl]
            exact ⟨fun _ => ⟨w, rfl, rfl, rfl, rfl, heq, rfl⟩,
                   fun hfalse => Bool.noConfusion hfalse⟩
        · cases udr with
          | true =>
            rw [safe_move_eq_mismatch_unlinkRaise hashFn fs src dst _ w c rfl rfl
              (hsrc1 w) rfl heq rfl]
            exact ⟨fun habs => Option.noConfusion ((hsrc1 w).symm.trans habs),
                   fun _ => hsrc1 w⟩
          | false =>
            rw [safe_move_eq_mismatch hashFn fs src dst _ w c rfl rfl (hsrc1 w) rfl heq rfl]
            have hkeep : fsLookup (fsRemove (fsWrite fs dst w) dst) src = some c :=
              (fsLookup_remove_ne (fsWrite fs dst w) hne).trans (hsrc1 w)
            exact ⟨fun habs => Option.noConfusion (hkeep.symm.trans habs), fun _ => hkeep⟩

/-- Witness for C1 at a concrete input: a faithful copy with no exceptions;
the hypotheses of the theorem hold and its conclusion follows. -/
theorem safe_move_deletes_source_only_after_verification_witness :
    (("/s/a" : String) ≠ "/d/b") ∧
    fsLookup ⟨[("/s/a", FileData.media 5)], []⟩ "/s/a" = some (FileData.media 5) ∧
    ((fsLookup (safe_move hashNat ⟨[("/s/a", FileData.media 5)], []⟩ "/s/a" "/d/b"
        (Env.clean (FileData.media 5))).fs "/s/a" = none →
      ∃ w, (Env.clean (FileData.media 5)).copy = CopyOutcome.ok w ∧
        (Env.clean (FileData.media 5)).hashSrcRaises = false ∧
        (Env.clean (FileData.media 5)).hashDstRaises = false ∧
        (Env.clean (FileData.media 5)).unlinkSrcRaises = false ∧
        hashNat (FileData.media 5) = hashNat w ∧
        (safe_move hashNat ⟨[("/s/a", FileData.media 5)], []⟩ "/s/a" "/d/b"
          (Env.clean (FileData.media 5))).ok = true) ∧
     ((safe_move hashNat ⟨[("/s/a", FileData.media 5)], []⟩ "/s/a" "/d/b"
          (Env.clean (FileData.media 5))).ok = false →
       fsLookup (safe_move hashNat ⟨[("/s/a", FileData.media 5)], []⟩ "/s/a" "/d/b"
          (Env.clean (FileData.media 5))).fs "/s/a" = some (FileData.media 5))) :=
  ⟨by decide, by decide,
   safe_move_deletes_source_only_after_verification hashNat
     ⟨[("/s/a", FileData.media 5)], []⟩ "/s/a" "/d/b" (Env.clean (FileData.media 5))
     (FileData.media 5) (by decide) (by decide)⟩

-- ### C10

/-- C10: when an exception is raised inside `safe_move` — during the copy,
either hash computation, or the deletion step — the function returns `False`
with the source untouched, and the destination file is NOT removed: whatever
the copy wrote (possibly incomplete or unverified data) remains on disk.
The destination is cleaned up only on an observed hash mismatch, never on an
exception path. -/
theorem safe_move_exception_leaves_destination
    (hashFn : FileData → String) (fs : FS) (src dst : String) (env : Env)
    (c : FileData) (hne : src ≠ dst) (hsrc : fsLookup fs src = some c) :
    (∀ w?, env.copy = CopyOutcome.raised w? →
      safe_move hashFn fs src dst env = ⟨fsWriteOpt fs dst w?, false, none⟩) ∧
    (∀ w, env.copy = CopyOutcome.ok w →
      (env.hashSrcRaises = true ∨ env.hashDstRaises = true ∨
        (hashFn c = hashFn w ∧ env.unlinkSrcRaises = true)) →
      safe_move hashFn fs src dst env = ⟨fsWrite fs dst w, false, none⟩ ∧
        fsLookup (safe_move hashFn fs src dst env).fs dst = some w ∧
        fsLookup (safe_move hashFn fs src dst env).fs src = some c) ∧
    (∀ w, env.copy = CopyOutcome.ok w →
      fsLookup (safe_move hashFn fs src dst env).fs dst = none →
      env.hashSrcRaises = false ∧ env.hashDstRaises = false ∧
        hashFn c ≠ hashFn w ∧ env.unlinkDstRaises = false) := by
  obtain ⟨cp, hsr, hdr, usr, udr⟩ := env
  have hsrc1 : ∀ w, fsLookup (fsWrite fs dst w) src = some c := fun w =>
    (fsLookup_write_ne fs w hne).trans hsrc
  refine ⟨fun w? hcp => ?_, fun w hcp hraise => ?_, fun w hcp hgone => ?_⟩
  · exact safe_move_eq_raised hashFn fs src dst _ w? hcp
  · cases hcp
    have heq : safe_move hashFn fs src dst ⟨CopyOutcome.ok w, hsr, hdr, usr, udr⟩ =
        ⟨fsWrite fs dst w, false, none⟩ := by
      rcases hraise with h | h | ⟨hmatch, h⟩
      · exact safe_move_eq_srcHashRaise hashFn fs src dst _ w rfl h
      · cases hsr with
        | true => exact safe_move_eq_srcHashRaise hashFn fs src dst _ w rfl rfl
        | false => exact safe_move_eq_dstHashRaise hashFn fs src dst _ w c rfl rfl (hsrc1 w) h
      · cases hsr with
        | true => exact safe_move_eq_srcHashRaise hashFn fs src dst _ w rfl rfl
        | false =>
          cases hdr with
          | true => exact safe_move_eq_dstHashRaise hashFn fs src dst _ w c rfl rfl (hsrc1 w) rfl
          | false =>
            exact safe_move_eq_match_unlinkRaise hashFn fs src dst _ w c rfl rfl
              (hsrc1 w) rfl hmatch h
    rw [heq]
    exact ⟨rfl, fsLookup_write_self fs dst w, hsrc1 w⟩
  · cases hcp
    cases hsr with
    | true =>
      rw [safe_move_eq_srcHashRaise hashFn fs src dst _ w rfl rfl] at hgone
      exact absurd ((fsLookup_write_self fs dst w).symm.trans hgone) (by simp)
    | false =>
      cases hdr with
      | true =>
        rw [safe_move_eq_dstHashRaise hashFn fs src dst _ w c rfl rfl (hsrc1 w) rfl] at hgone
        exact absurd ((fsLookup_write_self fs dst w).symm.trans hgone) (by simp)
      | false =>
        by_cases hmatch : hashFn c = hashFn w
        · cases usr with
          | true =>
            rw [safe_move_eq_match_unlinkRaise hashFn fs src dst _ w c rfl rfl
              (hsrc1 w) rfl hmatch rfl] at hgone
            exact absurd ((fsLookup_write_self fs dst w).symm.trans hgone) (by simp)
          | false =>
            rw [safe_move_eq_match hashFn fs src dst _ w c rfl rfl
              (hsrc1 w) rfl hmatch rfl] at hgone
            have : fsLookup (fsRemove (fsWrite fs dst w) src) dst = some w :=
              (fsLookup_remove_ne (fsWrite fs dst w) (Ne.symm hne)).trans
                (fsLookup_write_self fs dst w)
            exact absurd (this.symm.trans hgone) (by simp)
        · cases udr with
          | true =>
            rw [safe_move_eq_mismatch_unlinkRaise hashFn fs src dst _ w c rfl rfl
              (hsrc1 w) rfl hmatch rfl] at hgone
            exact absurd ((fsLookup_write_self fs dst w).symm.trans hgone) (by simp)
          | false => exact ⟨rfl, rfl, hmatch, rfl⟩

/-- Witness for C10: a copy that completes, followed by a raising source
hash; the unverified destination copy stays on disk and the source is kept. -/
theorem safe_move_exception_leaves_destination_witness :
    (("/s/x" : String) ≠ "/d/y") ∧
    fsLookup ⟨[("/s/x", FileData.media 5)], []⟩ "/s/x" = some (FileData.media 5) ∧
    ((⟨CopyOutcome.ok (FileData.media 7), true, false, false, false⟩ : Env).copy =
      CopyOutcome.ok (FileData.media 7)) ∧
    (safe_move hashNat ⟨[("/s/x", FileData.media 5)], []⟩ "/s/x" "/d/y"
        ⟨CopyOutcome.ok (FileData.media 7), true, false, false, false⟩ =
      ⟨fsWrite ⟨[("/s/x", FileData.media 5)], []⟩ "/d/y" (FileData.media 7),
        false, none⟩) :=
  ⟨by decide, by decide, by decide,
   ((safe_move_exception_leaves_destination hashNat
        ⟨[("/s/x", FileData.media 5)], []⟩ "/s/x" "/d/y"
        ⟨CopyOutcome.ok (FileData.media 7), true, false, false, false⟩
        (FileData.media 5) (by decide) (by decide)).2.1
      (FileData.media 7) rfl (Or.inl rfl)).1⟩

-- ### C7

/-- C7: on a post-copy digest mismatch the destination copy is deleted, the
source is retained untouched, the move returns failure, and both truncated
(12-character) digest prefixes are logged. The two halves of a pair succeed
or fail independently: in the concrete two-pair run below, pair A's video
copy is corrupted while its image copy succeeds, so the manifest records
image success and video failure, the source image is deleted, the source
video is retained, the corrupt destination video is removed, and the run
continues to the next pair, which completes. -/
theorem hash_mismatch_keeps_source_and_removes_copy
    (hashFn : FileData → String) (fs : FS) (src dst : String) (env : Env)
    (w c : FileData) (hne : src ≠ dst) (hsrc : fsLookup fs src = some c)
    (hdst : fsLookup fs dst = none) (hcp : env.copy = CopyOutcome.ok w)
    (h1 : env.hashSrcRaises = false) (h2 : env.hashDstRaises = false)
    (hmm : hashFn c ≠ hashFn w) (h3 : env.unlinkDstRaises = false) :
    ((safe_move hashFn fs src dst env).ok = false ∧
      fsLookup (safe_move hashFn fs src dst env).fs dst = none ∧
      fsLookup (safe_move hashFn fs src dst env).fs src = some c ∧
      (safe_move hashFn fs src dst env).mismatchLog =
        some (take12 (hashFn c), take12 (hashFn w))) ∧
    ((move_pairs hashNat sampleImgs sampleVids "/d" mismatchEnvs false
        sampleFS).manifest.pairs.map (fun e => (e.image.success, e.video.success)) =
      [(true, false), (true, true)] ∧
     fsLookup (move_pairs hashNat sampleImgs sampleVids "/d" mismatchEnvs false
        sampleFS).fs "/s/1.heic" = none ∧
     fsLookup (move_pairs hashNat sampleImgs sampleVids "/d" mismatchEnvs false
        sampleFS).fs "/s/1.mov" = some (FileData.media 2) ∧
     fsLookup (move_pairs hashNat sampleImgs sampleVids "/d" mismatchEnvs false
        sampleFS).fs "/d/0000-00-00_000000_LivePhoto_iPhone_AAAA0000.mov" = none ∧
     (move_pairs hashNat sampleImgs sampleVids "/d" mismatchEnvs false
        sampleFS).manifest.pairs.length = 2) := by
  constructor
  · have hsrc1 : fsLookup (fsWrite fs dst w) src = some c :=
      (fsLookup_write_ne fs w hne).trans hsrc
    rw [safe_move_eq_mismatch hashFn fs src dst env w c hcp h1 hsrc1 h2 hmm h3]
    exact ⟨rfl, fsLookup_remove_write_self fs dst w hdst,
      (fsLookup_remove_ne (fsWrite fs dst w) hne).trans hsrc1, rfl⟩
  · exact ⟨by decide, by decide, by decide, by decide, by decide⟩

/-- Witness for C7: a copy that writes corrupted data under an injective
digest function; hypotheses hold and the mismatch behaviour follows. -/
theorem hash_mismatch_keeps_source_and_removes_copy_witness :
    (("/s/x" : String) ≠ "/d/y") ∧
    fsLookup ⟨[("/s/x", FileData.media 2)], []⟩ "/s/x" = some (FileData.media 2) ∧
    fsLookup ⟨[("/s/x", FileData.media 2)], []⟩ "/d/y" = none ∧
    hashNat (FileData.media 2) ≠ hashNat (FileData.media 3) ∧
    ((safe_move hashNat ⟨[("/s/x", FileData.media 2)], []⟩ "/s/x" "/d/y"
        (Env.clean (FileData.media 3))).ok = false ∧
      fsLookup (safe_move hashNat ⟨[("/s/x", FileData.media 2)], []⟩ "/s/x" "/d/y"
        (Env.clean (FileData.media 3))).fs "/d/y" = none ∧
      fsLookup (safe_move hashNat ⟨[("/s/x", FileData.media 2)], []⟩ "/s/x" "/d/y"
        (Env.clean (FileData.media 3))).fs "/s/x" = some (FileData.media 2) ∧
      (safe_move hashNat ⟨[("/s/x", FileData.media 2)], []⟩ "/s/x" "/d/y"
        (Env.clean (FileData.media 3))).mismatchLog =
        some (take12 (hashNat (FileData.media 2)), take12 (hashNat (FileData.media 3)))) :=
  ⟨by decide, by decide, by decide, by decide,
   (hash_mismatch_keeps_source_and_removes_copy hashNat
      ⟨[("/s/x", FileData.media 2)], []⟩ "/s/x" "/d/y" (Env.clean (FileData.media 3))
      (FileData.media 3) (FileData.media 2) (by decide) (by decide) (by decide)
      rfl rfl rfl (by decide) rfl).1⟩

/-- C2: the destination paths chosen for a pair do NOT always share the same
base name. With `<base>.heic` already present in the destination but
`<base>.mov` absent, `safe_dest_path` suffixes only the image half, so the
image is assigned stem `<base>_01` while the video keeps stem `<base>` —
the two halves of the pair end up with different stems, contrary to the
claim (and to the script's own docstring, which requires a shared base name
for Apple Photos re-import). -/
theorem move_pairs_collision_splits_pair_base_names :
    ((move_pairs hashNat c2Imgs c2Vids "/dest" cleanEnvs12 false c2FS).manifest.pairs.map
        (fun e => (path_stem e.image.dest, path_stem e.video.dest)) =
      [("0000-00-00_000000_LivePhoto_iPhone_ABCD1234_01",
        "0000-00-00_000000_LivePhoto_iPhone_ABCD1234")]) ∧
    (("0000-00-00_000000_LivePhoto_iPhone_ABCD1234_01" : String) ≠
      "0000-00-00_000000_LivePhoto_iPhone_ABCD1234") := by
  exact ⟨by decide, by decide⟩

/-- C5 counterexample: collision-avoidance naming is NOT injective within
one run. Pair 1's image move fails with an exception that leaves no
destination file, so when pair 2 (same computed base name) is processed,
the existence check finds the name free again and assigns the SAME
destination path to a different source file. -/
theorem naming_reuses_path_after_failed_move :
    ((move_pairs hashNat c5Imgs c5Vids "/d" c5Envs false c5FS).manifest.pairs.map
        (fun e => e.image.source) = ["/s/1.heic", "/s/2.heic"]) ∧
    ((move_pairs hashNat c5Imgs c5Vids "/d" c5Envs false c5FS).manifest.pairs.map
        (fun e => e.image.dest) =
      ["/d/0000-00-00_000000_LivePhoto_iPhone_ABCD1234.heic",
       "/d/0000-00-00_000000_LivePhoto_iPhone_ABCD1234.heic"]) := by
  exact ⟨by decide, by decide⟩

/-- C5 (amended): `safe_dest_path` returns the unsuffixed candidate when no
file of that name exists, otherwise tries `_01`, `_02`, … until a name free
in the destination is found; the returned path never collides with any file
currently present (so two files of the same role get distinct paths as long
as every earlier colliding move left its destination file in place — in
particular when all moves succeed); the check runs independently per
extension, and a base name already present as `.heic` yields suffix `_01`
for the image while the `.mov` half keeps the bare name. -/
theorem safe_dest_path_spec :
    (∀ (fs : FS) (destDir base ext : String),
      fsExists fs (destDir ++ "/" ++ (base ++ ext)) = false →
      safe_dest_path fs destDir base ext = destDir ++ "/" ++ (base ++ ext)) ∧
    (∀ (fs : FS) (destDir base ext : String),
      fsExists fs (safe_dest_path fs destDir base ext) = false) ∧
    (∀ (fs : FS) (destDir base ext p : String),
      fsExists fs p = true → safe_dest_path fs destDir base ext ≠ p) ∧
    (∀ (fs : FS) (destDir base ext : String),
      fsExists fs (candidatePath destDir base ext 0) = true →
      fsExists fs (candidatePath destDir base ext 1) = false →
      safe_dest_path fs destDir base ext = candidatePath destDir base ext 1) ∧
    (safe_dest_path ⟨[("/d/B.heic", FileData.media 0)], ["/d"]⟩ "/d" "B" ".heic" =
      "/d/B_01.heic") ∧
    (safe_dest_path ⟨[("/d/B.heic", FileData.media 0)], ["/d"]⟩ "/d" "B" ".mov" =
      "/d/B.mov") := by
  refine ⟨safe_dest_path_of_free, safe_dest_path_free, safe_dest_path_no_collision,
    ?_, by decide, by decide⟩
  intro fs destDir base ext h0 h1
  have hpos : 1 ≤ fs.files.length := by
    rw [fsExists, Option.isSome_iff_exists] at h0
    rcases h0 with ⟨v, hv⟩
    have hmem := lookup_mem_keys hv
    rcases hfs : fs.files with _ | ⟨kv, t⟩
    · rw [hfs] at hmem
      simp at hmem
    · simp [hfs]
  rw [fsExists] at h0 h1
  rw [safe_dest_path, show fs.files.length + 1 = (fs.files.length - 1) + 1 + 1 by omega,
    safe_dest_path_go]
  rw [show (destDir ++ "/" ++ candidateName base ext 0) = candidatePath destDir base ext 0
    from rfl]
  rw [show fsExists fs (candidatePath destDir base ext 0) = true by
    rw [fsExists]; exact h0]
  simp only [if_true]
  rw [safe_dest_path_go]
  rw [show (destDir ++ "/" ++ candidateName base ext (0 + 1)) =
    candidatePath destDir base ext 1 by rw [candidatePath]]
  rw [show fsExists fs (candidatePath destDir base ext 1) = false by
    rw [fsExists]; exact h1]
  simp

/-- Witness for C5's amended statement: in a destination holding only
`/d/B.heic`, the bare `.mov` candidate is free and returned unchanged, the
occupied path is never returned, and the occupied `.heic` candidate yields
the `_01` suffix. -/
theorem safe_dest_path_spec_witness :
    (fsExists ⟨[("/d/B.heic", FileData.media 0)], ["/d"]⟩ ("/d" ++ "/" ++ ("B" ++ ".mov")) =
      false ∧
     safe_dest_path ⟨[("/d/B.heic", FileData.media 0)], ["/d"]⟩ "/d" "B" ".mov" =
      "/d" ++ "/" ++ ("B" ++ ".mov")) ∧
    (fsExists ⟨[("/d/B.heic", FileData.media 0)], ["/d"]⟩ "/d/B.heic" = true ∧
     safe_dest_path ⟨[("/d/B.heic", FileData.media 0)], ["/d"]⟩ "/d" "B" ".heic" ≠
      "/d/B.heic") ∧
    (fsExists ⟨[("/d/B.heic", FileData.media 0)], ["/d"]⟩
        (candidatePath "/d" "B" ".heic" 0) = true ∧
     fsExists ⟨[("/d/B.heic", FileData.media 0)], ["/d"]⟩
        (candidatePath "/d" "B" ".heic" 1) = false ∧
     safe_dest_path ⟨[("/d/B.heic", FileData.media 0)], ["/d"]⟩ "/d" "B" ".heic" =
      candidatePath "/d" "B" ".heic" 1) :=
  ⟨⟨by decide, safe_dest_path_spec.1 ⟨[("/d/B.heic", FileData.media 0)], ["/d"]⟩
      "/d" "B" ".mov" (by decide)⟩,
   ⟨by decide, safe_dest_path_spec.2.2.1 ⟨[("/d/B.heic", FileData.media 0)], ["/d"]⟩
      "/d" "B" ".heic" "/d/B.heic" (by decide)⟩,
   ⟨by decide, by decide, safe_dest_path_spec.2.2.2.1
      ⟨[("/d/B.heic", FileData.media 0)], ["/d"]⟩ "/d" "B" ".heic"
      (by decide) (by decide)⟩⟩

-- ### C3 (counterexample and amended statement)

/-- C3 counterexample: a dry run is NOT free of filesystem mutations.
`move_pairs` runs `dest_dir.mkdir(parents=True, exist_ok=True)` before the
dry-run branch, so a dry run over an empty filesystem creates the
destination directory. -/
theorem dry_run_creates_destination_directory :
    ((main_run hashNat [] "/dest"
        (fun _ => (Env.clean (FileData.media 0), Env.clean (FileData.media 0)))
        true ⟨[], []⟩).fs.dirs = ["/dest"]) ∧
    ((main_run hashNat [] "/dest"
        (fun _ => (Env.clean (FileData.media 0), Env.clean (FileData.media 0)))
        true ⟨[], []⟩).fs ≠ (⟨[], []⟩ : FS)) := by
  exact ⟨by decide, by decide⟩

/-- C3 (amended): a dry run creates the destination directory (if absent)
but performs no other filesystem mutation — no file is copied, deleted or
renamed — and writes no manifest file; it computes exactly the same
matched, orphan-image and orphan-video identifier lists as a non-dry-run
pass over the same inputs. -/
theorem dry_run_mutates_only_destination_directory
    (hashFn : FileData → String) (sources : List (Index × Index))
    (destDir : String) (envs : String → Env × Env) (fs : FS) :
    (main_run hashFn sources destDir envs true fs).fs.files = fs.files ∧
    (main_run hashFn sources destDir envs true fs).fs.dirs = (mkdirP fs destDir).dirs ∧
    (main_run hashFn sources destDir envs true fs).manifest.pairs = [] ∧
    (main_run hashFn sources destDir envs true fs).manifest.orphan_images = [] ∧
    (main_run hashFn sources destDir envs true fs).manifest.orphan_videos = [] ∧
    (main_run hashFn sources destDir envs true fs).matchedReport =
      (main_run hashFn sources destDir envs false fs).matchedReport ∧
    (main_run hashFn sources destDir envs true fs).orphanImgReport =
      (main_run hashFn sources destDir envs false fs).orphanImgReport ∧
    (main_run hashFn sources destDir envs true fs).orphanVidReport =
      (main_run hashFn sources destDir envs false fs).orphanVidReport := by
  refine ⟨?_, rfl, rfl, rfl, rfl, ?_, ?_, ?_⟩
  · exact mkdirP_files fs destDir
  all_goals simp [main_run, move_pairs]

/-- C4: the derived base name is
`<date:YYYY-MM-DD>_<time:HHMMSS>_LivePhoto_<model>_<id8>`: the date/time
come from parsing `DateTimeOriginal` against the fixed pattern
`YYYY:MM:DD HH:MM:SS` (sentinel `0000-00-00_000000` on a missing or
unparsable value); the model is the device string with spaces and commas
stripped, falling back to `iPhone` when empty; `id8` is the first 8
characters of the identifier with dashes removed, upper-cased. The spec's
scenario record yields exactly
`2024-03-01_101522_LivePhoto_iPhone15Pro_ABCD1234`. -/
theorem rich_base_name_spec :
    (rich_base_name c4Meta "ABCD1234-AAAA-BBBB-CCCC-DDDDDDDDDDDD" =
      "2024-03-01_101522_LivePhoto_iPhone15Pro_ABCD1234") ∧
    (parseDT "" = none) ∧
    (∀ (meta : RawRec) (uuid : String),
      parseDT (meta.dateTimeOriginal.getD "") = none →
      rich_base_name meta uuid =
        "0000-00-00_000000" ++ "_LivePhoto_" ++
          (if modelCompact meta.model = "" then "iPhone" else modelCompact meta.model) ++
          "_" ++ uuidShort uuid) ∧
    (∀ (meta : RawRec) (uuid : String) (t : DT),
      parseDT (meta.dateTimeOriginal.getD "") = some t →
      rich_base_name meta uuid =
        fmtDT t ++ "_LivePhoto_" ++
          (if modelCompact meta.model = "" then "iPhone" else modelCompact meta.model) ++
          "_" ++ uuidShort uuid) ∧
    (modelCompact (some "") = "" ∧ modelCompact none = "") := by
  refine ⟨by decide, by decide, ?_, ?_, by decide, by decide⟩
  · intro meta uuid hnone
    rw [rich_base_name, hnone]
  · intro meta uuid t hsome
    rw [rich_base_name, hsome]

/-- Witness for C4: a record with an unparsable timestamp and an empty
model gets the sentinel date and the `iPhone` fallback; the scenario
record's timestamp parses and produces the formatted date. -/
theorem rich_base_name_spec_witness :
    (parseDT ((⟨"/a/y.heic", some "FFFF0000-1", some 1, some "not a date",
        some ""⟩ : RawRec).dateTimeOriginal.getD "") = none ∧
     rich_base_name ⟨"/a/y.heic", some "FFFF0000-1", some 1, some "not a date", some ""⟩
        "FFFF0000-1" =
      "0000-00-00_000000" ++ "_LivePhoto_" ++
        (if modelCompact (some "") = "" then "iPhone" else modelCompact (some "")) ++
        "_" ++ uuidShort "FFFF0000-1") ∧
    (parseDT (c4Meta.dateTimeOriginal.getD "") = some ⟨2024, 3, 1, 10, 15, 22⟩ ∧
     rich_base_name c4Meta "ABCD1234-AAAA-BBBB-CCCC-DDDDDDDDDDDD" =
      fmtDT ⟨2024, 3, 1, 10, 15, 22⟩ ++ "_LivePhoto_" ++
        (if modelCompact c4Meta.model = "" then "iPhone" else modelCompact c4Meta.model) ++
        "_" ++ uuidShort "ABCD1234-AAAA-BBBB-CCCC-DDDDDDDDDDDD") :=
  ⟨⟨by decide,
    rich_base_name_spec.2.2.1
      ⟨"/a/y.heic", some "FFFF0000-1", some 1, some "not a date", some ""⟩
      "FFFF0000-1" (by decide)⟩,
   ⟨by decide,
    rich_base_name_spec.2.2.2.1 c4Meta "ABCD1234-AAAA-BBBB-CCCC-DDDDDDDDDDDD"
      ⟨2024, 3, 1, 10, 15, 22⟩ (by decide)⟩⟩

-- ### C6

theorem video_exts_not_image {s : String} (h : s ∈ VIDEO_EXTS) : s ∉ IMAGE_EXTS := by
  fin_cases h
  decide

/-- C6: `scan_folder`'s classification of one raw record — records lacking a
source path or an identifier are skipped; a record goes into the
images-index only when its lowercase extension is an image extension AND
the `LivePhotoVideoIndex` marker is present; a record with a video
extension goes into the videos-index (identifier alone suffices); every
other record — in particular an image with an identifier but no marker —
is dropped entirely, so it can appear neither as a candidate nor as an
orphan. -/
theorem classify_step_spec (acc : Index × Index) (r : RawRec) :
    (r.sourceFile = "" → classify_step acc r = acc) ∧
    (r.contentIdentifier = none → classify_step acc r = acc) ∧
    (r.contentIdentifier = some "" → classify_step acc r = acc) ∧
    (∀ u, r.sourceFile ≠ "" → r.contentIdentifier = some u → u ≠ "" →
      ((ext_lower r.sourceFile ∈ IMAGE_EXTS → r.livePhotoVideoIndex ≠ none →
          classify_step acc r = (insertIfNew acc.1 u (r.sourceFile, r), acc.2)) ∧
       (ext_lower r.sourceFile ∈ IMAGE_EXTS → r.livePhotoVideoIndex = none →
          classify_step acc r = acc) ∧
       (ext_lower r.sourceFile ∈ VIDEO_EXTS →
          classify_step acc r = (acc.1, insertIfNew acc.2 u (r.sourceFile, r))) ∧
       (ext_lower r.sourceFile ∉ IMAGE_EXTS → ext_lower r.sourceFile ∉ VIDEO_EXTS →
          classify_step acc r = acc))) := by
  refine ⟨fun hs => ?_, fun hid => ?_, fun hid => ?_, fun u hsf hid hu => ?_⟩
  · rw [classify_step, if_pos hs]
  · by_cases hs : r.sourceFile = ""
    · rw [classify_step, if_pos hs]
    · rw [classify_step, if_neg hs, hid]
  · by_cases hs : r.sourceFile = ""
    · rw [classify_step, if_pos hs]
    · rw [classify_step, if_neg hs, hid]
      simp
  · rw [classify_step, if_neg hsf, hid]
    refine ⟨fun himg hlp => ?_, fun himg hlp => ?_, fun hvid => ?_, fun himgn hvidn => ?_⟩
    · simp only [if_neg hu]
      rw [if_pos ⟨himg, hlp⟩]
    · simp only [if_neg hu]
      rw [if_neg (fun hc => hc.2 hlp),
        if_neg (fun hc => image_exts_not_video himg hc)]
    · simp only [if_neg hu]
      rw [if_neg (fun hc => video_exts_not_image hvid hc.1), if_pos hvid]
    · simp only [if_neg hu]
      rw [if_neg (fun hc => himgn hc.1), if_neg hvidn]

/-- Witness for C6: a plain photo record with an identifier but no
`LivePhotoVideoIndex` marker is dropped: starting from empty indices it is
indexed neither as an image nor as a video. -/
theorem classify_step_spec_witness :
    ((⟨"/p/plain.jpg", some "CCCC0000-9", none, none, none⟩ : RawRec).sourceFile ≠ "" ∧
     (⟨"/p/plain.jpg", some "CCCC0000-9", none, none, none⟩ : RawRec).contentIdentifier =
      some "CCCC0000-9" ∧
     ("CCCC0000-9" : String) ≠ "" ∧
     ext_lower "/p/plain.jpg" ∈ IMAGE_EXTS) ∧
    classify_step (([], []) : Index × Index)
      ⟨"/p/plain.jpg", some "CCCC0000-9", none, none, none⟩ = ([], []) :=
  ⟨⟨by decide, by decide, by decide, by decide⟩,
   ((classify_step_spec (([], []) : Index × Index)
        ⟨"/p/plain.jpg", some "CCCC0000-9", none, none, none⟩).2.2.2
      "CCCC0000-9" (by decide) (by decide) (by decide)).2.1 (by decide) (by decide)⟩

/-- C8: merging per-source index pairs is first-seen-wins per identifier:
with sources processed in order `[A, B]`, an identifier present in `A`
resolves to `A`'s record (never `B`'s), and only identifiers absent from
`A` resolve to `B`'s records; within one source's scan the same rule is
enforced by `insertIfNew`, which keeps the existing entry and appends only
unseen identifiers. -/
theorem merge_first_seen_wins (A B : Index × Index) (u : String) :
    (u ∈ idxKeys A.1 → (merge_sources [A, B]).1.lookup u = A.1.lookup u) ∧
    (u ∉ idxKeys A.1 → (merge_sources [A, B]).1.lookup u = B.1.lookup u) ∧
    (u ∈ idxKeys A.2 → (merge_sources [A, B]).2.lookup u = A.2.lookup u) ∧
    (u ∉ idxKeys A.2 → (merge_sources [A, B]).2.lookup u = B.2.lookup u) ∧
    (∀ (idx : Index) (v : String × RawRec), (idx.lookup u).isSome →
      insertIfNew idx u v = idx) ∧
    (∀ (idx : Index) (v : String × RawRec), idx.lookup u = none →
      (insertIfNew idx u v).lookup u = some v) := by
  have h2 := merge_sources_two A B u
  refine ⟨fun hmem => ?_, fun hmem => ?_, fun hmem => ?_, fun hmem => ?_,
    fun idx v h => insertIfNew_of_isSome v h,
    fun idx v h => insertIfNew_lookup_of_none v h⟩
  · rw [h2.1]
    rcases Option.isSome_iff_exists.mp (mem_keys_lookup_isSome hmem) with ⟨d, hd⟩
    rw [hd]
    rfl
  · rw [h2.1]
    cases hd : A.1.lookup u with
    | some d => exact absurd (lookup_mem_keys hd) hmem
    | none => rfl
  · rw [h2.2]
    rcases Option.isSome_iff_exists.mp (mem_keys_lookup_isSome hmem) with ⟨d, hd⟩
    rw [hd]
    rfl
  · rw [h2.2]
    cases hd : A.2.lookup u with
    | some d => exact absurd (lookup_mem_keys hd) hmem
    | none => rfl

/-- Witness for C8: both sources hold identifier `U`; the merged image and
video indices resolve `U` to source `A`'s records, which differ from `B`'s. -/
theorem merge_first_seen_wins_witness :
    ("U" ∈ idxKeys c8A.1 ∧ "U" ∈ idxKeys c8A.2) ∧
    ((merge_sources [c8A, c8B]).1.lookup "U" = c8A.1.lookup "U" ∧
     (merge_sources [c8A, c8B]).2.lookup "U" = c8A.2.lookup "U") ∧
    (c8A.1.lookup "U" = some ("/a/1.heic", recImgA) ∧
     c8B.1.lookup "U" = some ("/b/2.heic", recImgB) ∧
     ("/a/1.heic", recImgA) ≠ ("/b/2.heic", recImgB)) :=
  ⟨⟨by decide, by decide⟩,
   ⟨(merge_first_seen_wins c8A c8B "U").1 (by decide),
    (merge_first_seen_wins c8A c8B "U").2.2.1 (by decide)⟩,
   ⟨by decide, by decide, by decide⟩⟩

-- ### C9

/-- C9: matching is pure set algebra over the global indices' key sets —
the matched identifiers are exactly the keys present in both indices, the
orphan-image identifiers are the image keys not in the matched set, and
the orphan-video identifiers are the video keys not in the matched set;
each list is lexicographically sorted, and `move_pairs` iterates exactly
these lists for pair processing and orphan reporting in both dry and real
runs (determinism is immediate: the lists are functions of the indices). -/
theorem matching_set_algebra (imgs vids : Index) :
    (∀ u, u ∈ matchedOf imgs vids ↔ u ∈ idxKeys imgs ∧ u ∈ idxKeys vids) ∧
    (∀ u, u ∈ orphanImgsOf imgs vids ↔ u ∈ idxKeys imgs ∧ u ∉ matchedOf imgs vids) ∧
    (∀ u, u ∈ orphanVidsOf imgs vids ↔ u ∈ idxKeys vids ∧ u ∉ matchedOf imgs vids) ∧
    List.Sorted (· ≤ ·) (matchedOf imgs vids) ∧
    List.Sorted (· ≤ ·) (orphanImgsOf imgs vids) ∧
    List.Sorted (· ≤ ·) (orphanVidsOf imgs vids) ∧
    (∀ (hashFn : FileData → String) (destDir : String) (envs : String → Env × Env)
        (dryRun : Bool) (fs : FS),
      (move_pairs hashFn imgs vids destDir envs dryRun fs).matchedReport =
        matchedOf imgs vids ∧
      (move_pairs hashFn imgs vids destDir envs dryRun fs).orphanImgReport =
        orphanImgsOf imgs vids ∧
      (move_pairs hashFn imgs vids destDir envs dryRun fs).orphanVidReport =
        orphanVidsOf imgs vids) := by
  have hmatch : ∀ u, u ∈ matchedOf imgs vids ↔ u ∈ idxKeys imgs ∧ u ∈ idxKeys vids := by
    intro u
    rw [matchedOf, (List.perm_insertionSort strLe _).mem_iff, List.mem_filter,
      List.mem_dedup]
    simp
  refine ⟨hmatch, ?_, ?_, ?_, ?_, ?_, ?_⟩
  · intro u
    rw [orphanImgsOf, (List.perm_insertionSort strLe _).mem_iff, List.mem_filter,
      List.mem_dedup, hmatch u]
    simp
    tauto
  · intro u
    rw [orphanVidsOf, (List.perm_insertionSort strLe _).mem_iff, List.mem_filter,
      List.mem_dedup, hmatch u]
    simp
    tauto
  · exact sorted_strLe_imp_le (List.sorted_insertionSort strLe _)
  · exact sorted_strLe_imp_le (List.sorted_insertionSort strLe _)
  · exact sorted_strLe_imp_le (List.sorted_insertionSort strLe _)
  · intro hashFn destDir envs dryRun fs
    cases dryRun <;> exact ⟨rfl, rfl, rfl⟩
